import Mathlib

/-!
Shallow embedding of the construction-defect inference service (`api.py`)
and proofs about its preprocessing, interpretation, registry construction
and single/bulk pipelines.

Numpy arrays of floats are modelled with rational entries; Python dicts are
modelled as association lists with Python's insertion semantics; a raised
Python exception is modelled as `Except.error` carrying the text of the
exception (for a `KeyError`, the text of the missing key).  External
collaborators (PIL decoding and resampling, the Keras model) are modelled
as explicit function-valued inputs, exactly as the spec treats them
(opaque collaborators the core never re-specifies).
-/

namespace ConstructionDefects

/-- Raw uploaded file contents, one natural number per byte. -/
abbrev Bytes := List Nat

/-- Model of a numpy array: a shape together with the value stored at each
multi-index (indices outside the shape are irrelevant padding). -/
structure NDArray where
  shape : List Nat
  entry : List Nat → ℚ

/-- Model of a decoded PIL image: width, height, colour mode, and the
channel values (bytes 0–255) of each pixel, column then row then channel. -/
structure Image where
  width : Nat
  height : Nat
  mode : String
  pix : Nat → Nat → Fin 3 → Nat

/-- Embedding of `image.convert("RGB")` (external PIL collaborator): the
result is in RGB mode with the same dimensions; the per-pixel colour
conversion is already carried by the `pix` field. -/
def Image.convertRGB (img : Image) : Image :=
  { img with mode := "RGB" }

/-- Embedding of `image.resize((w, h))` (external PIL collaborator): the
result has width `w` and height `h`; pixel values are resampled from the
source, modelled as nearest-neighbour sampling — only the output
dimensions and the determinism of the resampling matter for the
properties proved below. -/
def Image.resize (img : Image) (w h : Nat) : Image :=
  { width := w, height := h, mode := img.mode,
    pix := fun x y c => img.pix (x * img.width / max w 1) (y * img.height / max h 1) c }

/-- Embedding of `preprocess_image` (`api.py` lines 33–48): force RGB,
resize to 128×128, scale every byte by 1/255 into a `(height, width, 3)`
array, and add a leading batch axis. -/
def preprocess_image (image : Image) : NDArray :=
  let image1 := if image.mode != "RGB" then image.convertRGB else image
  let image2 := image1.resize 128 128
  let img_array : NDArray :=
    { shape := [image2.height, image2.width, 3],
      entry := fun ix =>
        match ix with
        | [y, x, c] =>
            if hc : c < 3 then ((image2.pix x y ⟨c, hc⟩ : ℚ)) / 255 else 0
        | _ => 0 }
  { shape := 1 :: img_array.shape,
    entry := fun ix =>
      match ix with
      | [] => 0
      | _ :: rest => img_array.entry rest }

/-- Model of the external Keras collaborator: `model.predict` maps a batched
input array to a batch of per-class score rows. -/
structure Model where
  predict : NDArray → List (List ℚ)

/-- Embedding of `np.max`: maximum of a nonempty list (`0` is a junk value
for the empty list, on which numpy raises and which callers guard). -/
def listMax : List ℚ → ℚ
  | [] => 0
  | [x] => x
  | x :: y :: ys => if listMax (y :: ys) ≤ x then x else listMax (y :: ys)

/-- Embedding of `np.argmax`: index of the first occurrence of the maximum
(`0` is a junk value for the empty list, on which numpy raises and which
callers guard). -/
def argmax : List ℚ → Nat
  | [] => 0
  | [_] => 0
  | x :: y :: ys => if listMax (y :: ys) ≤ x then 0 else argmax (y :: ys) + 1

/-- Lookup (`d[k]` when present) in a Python dict modelled as an
association list. -/
def dictFind {α β : Type} [BEq α] (d : List (α × β)) (k : α) : Option β :=
  (d.find? (fun p => p.1 == k)).map (fun p => p.2)

/-- Embedding of `d.get(k, dflt)`. -/
def dictGetD {α β : Type} [BEq α] (d : List (α × β)) (k : α) (dflt : β) : β :=
  (dictFind d k).getD dflt

/-- Insertion into a Python dict: overwrite the value in place if the key is
already present, append a fresh entry otherwise. -/
def dictInsert {α β : Type} [BEq α] : List (α × β) → α → β → List (α × β)
  | [], k, v => [(k, v)]
  | p :: d, k, v => if p.1 == k then (k, v) :: d else p :: dictInsert d k v

/-- Embedding of the dict comprehension on lines 82–84 of `api.py`,
`idx_to_label[i]: float(prediction[0][i]) for i in range(len(prediction[0]))`,
iterated from index `i` with accumulator `acc`; a missing key raises
`KeyError` (whose `str` is the missing key), modelled as `Except.error`. -/
def buildProbsAux (idx_to_label : List (Nat × String)) :
    Nat → List (String × ℚ) → List ℚ → Except String (List (String × ℚ))
  | _, acc, [] => Except.ok acc
  | i, acc, v :: vs =>
    match dictFind idx_to_label i with
    | none => Except.error (toString i)
    | some name => buildProbsAux idx_to_label (i + 1) (dictInsert acc name v) vs

/-- The full probability dict of `predict_defect` (lines 82–84 of `api.py`). -/
def buildProbs (idx_to_label : List (Nat × String)) (pred : List ℚ) :
    Except String (List (String × ℚ)) :=
  buildProbsAux idx_to_label 0 [] pred

/-- ASCII letter test, used to model Python's notion of a cased character
for the label strings handled by the service. -/
def isAsciiLetter (c : Char) : Bool :=
  (decide ('a' ≤ c) && decide (c ≤ 'z')) || (decide ('A' ≤ c) && decide (c ≤ 'Z'))

/-- Character-level recursion behind `str.title()`: uppercase every letter
that does not follow a letter, lowercase every letter that does. -/
def titleChars : Bool → List Char → List Char
  | _, [] => []
  | prevLetter, c :: cs =>
    (if isAsciiLetter c then (if prevLetter then c.toLower else c.toUpper) else c)
      :: titleChars (isAsciiLetter c) cs

/-- Embedding of Python `str.title()` restricted to ASCII strings (the only
ones the service produces). -/
def pythonTitle (s : String) : String := ⟨titleChars false s.data⟩

/-- Embedding of Python `str.lower()` restricted to ASCII strings. -/
def pyLower (s : String) : String := ⟨s.data.map Char.toLower⟩

/-- Embedding of Python `str.replace(a, b)` for single-character patterns,
as used by `predicted_class.replace('_', ' ')`. -/
def replaceChar (a b : Char) (s : String) : String :=
  ⟨s.data.map (fun c => if c = a then b else c)⟩

instance {ε α : Type} [DecidableEq ε] [DecidableEq α] : DecidableEq (Except ε α) := fun a b =>
  match a, b with
  | Except.error x, Except.error y =>
    if h : x = y then Decidable.isTrue (by rw [h])
    else Decidable.isFalse (fun hc => by cases hc; exact h rfl)
  | Except.error _, Except.ok _ => Decidable.isFalse (fun hc => by cases hc)
  | Except.ok _, Except.error _ => Decidable.isFalse (fun hc => by cases hc)
  | Except.ok x, Except.ok y =>
    if h : x = y then Decidable.isTrue (by rw [h])
    else Decidable.isFalse (fun hc => by cases hc; exact h rfl)

/-- The dictionary returned by `predict_defect` (lines 77–85 of `api.py`). -/
structure DecisionRecord where
  has_defect : Bool
  defect_type : String
  confidence : ℚ
  prediction : String
  all_probabilities : List (String × ℚ)
deriving DecidableEq, Repr

/-- Embedding of `predict_defect` (`api.py` lines 50–85).  Raising is
modelled as `Except.error` carrying `str(e)`: the guard
`Exception("Model not loaded")`, numpy's errors on an empty prediction,
and the `KeyError` raised by the probability dict comprehension. -/
def predict_defect (model : Option Model) (idx_to_label : List (Nat × String))
    (img_array : NDArray) : Except String DecisionRecord :=
  match model with
  | none => Except.error ("Model not loaded")
  | some m =>
    match m.predict img_array with
    | [] => Except.error ("index 0 is out of bounds for axis 0 with size 0")
    | pred0 :: _ =>
      if pred0.isEmpty then
        Except.error ("attempt to get argmax of an empty sequence")
      else
        let predicted_class_idx := argmax pred0
        let confidence := listMax pred0
        let predicted_class := dictGetD idx_to_label predicted_class_idx ("Unknown")
        let has_defect := pyLower predicted_class != "normal"
        match buildProbs idx_to_label pred0 with
        | Except.error e => Except.error e
        | Except.ok probs =>
          Except.ok
            { has_defect := has_defect
              defect_type := predicted_class
              confidence := confidence
              prediction :=
                pythonTitle (replaceChar '_' ' ' predicted_class) ++
                  (if has_defect then " (Defect Detected)" else " (No Defect)")
              all_probabilities := probs }

/-- Embedding of `idx_to_label = {v: k for k, v in class_labels.items()}`
(line 104 of `api.py`): the inverse mapping, built with Python dict
insertion semantics, so that a duplicated index silently keeps only the
last name. -/
def invertMap (class_labels : List (String × Nat)) : List (Nat × String) :=
  class_labels.foldl (fun d p => dictInsert d p.2 p.1) []

/-- The hardcoded fallback label table (lines 109–110 of `api.py`). -/
def fallback_idx_to_label : List (Nat × String) :=
  [(0, "algae"), (1, "major_crack"), (2, "minor_crack"), (3, "normal"),
   (4, "peeling"), (5, "spalling"), (6, "stain")]

/-- The module-level mutable state of `api.py` after startup. -/
structure ServerState where
  model : Option Model
  class_labels : List (String × Nat)
  idx_to_label : List (Nat × String)

/-- Embedding of the `load_model` startup handler (`api.py` lines 87–113):
a missing model file leaves `model` unset, a missing label-map file
installs the fallback table; the whole body is wrapped in `try/except`, so
startup itself always completes. -/
def load_model (modelFile : Option Model)
    (labelFile : Option (List (String × Nat))) : ServerState :=
  { model := modelFile
    class_labels := labelFile.getD []
    idx_to_label :=
      match labelFile with
      | some cl => invertMap cl
      | none => fallback_idx_to_label }

/-- The serialized response of `POST /predict`: either the success payload,
or a `JSONResponse` with an HTTP status code and an error message. -/
inductive PredictResponse where
  | ok (prediction : String) (has_defect : Bool) (defect_type : String)
      (confidence : ℚ) (all_probabilities : List (String × ℚ))
  | err (status_code : Nat) (error : String)
deriving DecidableEq, Repr

/-- Embedding of `predict_single` (`api.py` lines 137–168): decode the bytes
(external `Image.open`, supplied as the `decode` collaborator), preprocess,
predict; any raised error becomes a status-500 failure response. -/
def predict_single (decode : Bytes → Except String Image) (model : Option Model)
    (idx_to_label : List (Nat × String)) (contents : Bytes) : PredictResponse :=
  match decode contents with
  | Except.error e => PredictResponse.err 500 e
  | Except.ok image =>
    match predict_defect model idx_to_label (preprocess_image image) with
    | Except.error e => PredictResponse.err 500 e
    | Except.ok r =>
        PredictResponse.ok r.prediction r.has_defect r.defect_type r.confidence
          r.all_probabilities

/-- One entry of the bulk response: a success entry carries the full
prediction fields, an error entry carries only the image name and an
`Error: ...` string. -/
structure BulkItem where
  image_name : String
  prediction : String
  defect_type : Option String
  confidence : Option ℚ
  has_defect : Option Bool
deriving DecidableEq, Repr

/-- The serialized response of `POST /predict/bulk`. -/
structure BulkResponse where
  success : Bool
  total_images : Nat
  results : List BulkItem
deriving DecidableEq, Repr

/-- Embedding of the per-item body of the `predict_bulk` loop (`api.py`
lines 179–201), including its local `try/except`. -/
def bulkItemFor (decode : Bytes → Except String Image) (model : Option Model)
    (idx_to_label : List (Nat × String)) (file : String × Bytes) : BulkItem :=
  match decode file.2 with
  | Except.error e =>
      { image_name := file.1, prediction := "Error: " ++ e,
        defect_type := none, confidence := none, has_defect := none }
  | Except.ok image =>
    match predict_defect model idx_to_label (preprocess_image image) with
    | Except.error e =>
        { image_name := file.1, prediction := "Error: " ++ e,
          defect_type := none, confidence := none, has_defect := none }
    | Except.ok r =>
        { image_name := file.1, prediction := r.prediction,
          defect_type := some r.defect_type, confidence := some r.confidence,
          has_defect := some r.has_defect }

/-- Embedding of `predict_bulk` (`api.py` lines 170–207): run the single-item
pipeline once per uploaded file, in input order, isolating failures per
item; the overall response always reports success once the loop finishes. -/
def predict_bulk (decode : Bytes → Except String Image) (model : Option Model)
    (idx_to_label : List (Nat × String)) (files : List (String × Bytes)) :
    BulkResponse :=
  { success := true
    total_images := files.length
    results := files.map (bulkItemFor decode model idx_to_label) }

/-- Modelled from the spec: Model Input Geometry (spec §3), absent from
`src/` — the service never introspects its model's expected input shape.
A `none` marks a spatial dimension declared dynamic, which the spec
defaults to 224 (spec §4.1 step 3). -/
inductive Geometry where
  | flattened (length : Nat)
  | spatial (height width : Option Nat) (channels : Nat)

/-- Modelled from the spec: the per-example tensor shape a geometry denotes,
with dynamic spatial dimensions defaulted to 224. -/
def Geometry.shape : Geometry → List Nat
  | .flattened n => [n]
  | .spatial h w c => [h.getD 224, w.getD 224, c]

/-- A model collaborator that returns a fixed batch of score rows,
used to drive `predict_defect` with a chosen raw output. -/
def constModel (rows : List (List ℚ)) : Model := ⟨fun _ => rows⟩

/-- A concrete array, used as an arbitrary input where the value is
irrelevant. -/
def nullArray : NDArray := ⟨[], fun _ => 0⟩

/-- A concrete 1×1 RGB image. -/
def nullImage : Image := ⟨1, 1, "RGB", fun _ _ _ => 0⟩

/-- A decode collaborator that always succeeds with `nullImage`. -/
def nullDecode : Bytes → Except String Image := fun _ => Except.ok nullImage

/-- The association list the probability dict comprehension produces when
every index is present in the registry and no two produced names collide:
entry `j` maps the registry name of index `i + j` to the score at `j`. -/
def probsSpec (idx_to_label : List (Nat × String)) : Nat → List ℚ → List (String × ℚ)
  | _, [] => []
  | i, v :: vs =>
    (dictGetD idx_to_label i ("Unknown"), v) :: probsSpec idx_to_label (i + 1) vs

/-- The name the registry associates to the last pair carrying a given
index, if any: the value Python dict construction retains on duplicates. -/
def lastKeyed : List (String × Nat) → Nat → Option String
  | [], _ => none
  | p :: cl, k =>
    match lastKeyed cl k with
    | some n => some n
    | none => if p.2 == k then some p.1 else none

/-! ## Supporting lemmas -/

/-- Unfolding lemma for `listMax` on a two-or-more element list. -/
theorem listMax_cons (x y : ℚ) (ys : List ℚ) :
    listMax (x :: y :: ys) = if listMax (y :: ys) ≤ x then x else listMax (y :: ys) := rfl

/-- Unfolding lemma for `argmax` on a two-or-more element list. -/
theorem argmax_cons (x y : ℚ) (ys : List ℚ) :
    argmax (x :: y :: ys) = if listMax (y :: ys) ≤ x then 0 else argmax (y :: ys) + 1 := rfl

/-- The arg-max of a nonempty list is a valid index. -/
theorem argmax_lt_length : ∀ (l : List ℚ), l ≠ [] → argmax l < l.length
  | [], h => absurd rfl h
  | [_], _ => by simp [argmax]
  | x :: y :: ys, _ => by
    rw [argmax_cons]
    by_cases hc : listMax (y :: ys) ≤ x
    · simp [hc]
    · have ih := argmax_lt_length (y :: ys) (by simp)
      simp only [if_neg hc, List.length_cons]
      simp only [List.length_cons] at ih
      omega

/-- The value at the arg-max of a nonempty list is its maximum. -/
theorem getD_argmax : ∀ (l : List ℚ), l ≠ [] → l.getD (argmax l) 0 = listMax l
  | [], h => absurd rfl h
  | [_], _ => by simp [argmax, listMax]
  | x :: y :: ys, _ => by
    rw [argmax_cons, listMax_cons]
    by_cases hc : listMax (y :: ys) ≤ x
    · simp [hc]
    · simp only [if_neg hc, List.getD_cons_succ]
      exact getD_argmax (y :: ys) (by simp)

/-- The arg-max is the least index attaining the maximum. -/
theorem argmax_le : ∀ (l : List ℚ) (j : Nat), j < l.length → l.getD j 0 = listMax l →
    argmax l ≤ j
  | [], j, hj, _ => by simp at hj
  | [_], _, _, _ => by simp [argmax]
  | x :: y :: ys, j, hj, hget => by
    rw [argmax_cons]
    by_cases hc : listMax (y :: ys) ≤ x
    · simp [hc]
    · simp only [if_neg hc]
      have hlm : listMax (x :: y :: ys) = listMax (y :: ys) := by
        rw [listMax_cons, if_neg hc]
      match j with
      | 0 =>
        rw [hlm] at hget
        simp only [List.getD_cons_zero] at hget
        exact absurd (hget ▸ le_refl x) hc
      | j' + 1 =>
        have hj' : j' < (y :: ys).length := by simpa using hj
        have hg' : (y :: ys).getD j' 0 = listMax (y :: ys) := by
          rw [hlm] at hget; simpa using hget
        have := argmax_le (y :: ys) j' hj' hg'
        omega

/-- Head-unfolding of association-list lookup. -/
theorem dictFind_cons {α β : Type} [BEq α] (p : α × β) (d : List (α × β)) (k : α) :
    dictFind (p :: d) k = if p.1 == k then some p.2 else dictFind d k := by
  cases h : (p.1 == k) <;> simp [dictFind, List.find?, h]

/-- Inserting a fresh key into a dict appends the new entry. -/
theorem dictInsert_eq_append {α β : Type} [BEq α] [LawfulBEq α] :
    ∀ (d : List (α × β)) (k : α) (v : β), (∀ p ∈ d, p.1 ≠ k) →
    dictInsert d k v = d ++ [(k, v)]
  | [], _, _, _ => rfl
  | p :: d, k, v, h => by
    rw [dictInsert]
    rw [if_neg, dictInsert_eq_append d k v (fun q hq => h q (List.mem_cons_of_mem _ hq))]
    · rfl
    · simp [h p (List.mem_cons_self _ _)]

/-- Lookup after a dict insertion: the inserted key now maps to the new
value, every other key is unaffected. -/
theorem dictFind_dictInsert {α β : Type} [BEq α] [LawfulBEq α] :
    ∀ (d : List (α × β)) (k : α) (v : β) (q : α),
    dictFind (dictInsert d k v) q = if q == k then some v else dictFind d q
  | [], k, v, q => by
    rw [dictInsert, dictFind_cons]
    by_cases h : q = k
    · simp [h]
    · simp [h, Ne.symm h, dictFind, List.find?]
  | p :: d, k, v, q => by
    rw [dictInsert]
    by_cases hp : p.1 = k
    · rw [if_pos (by simpa using hp), dictFind_cons, dictFind_cons]
      by_cases h : q = k
      · simp [h]
      · have hpq : (p.1 == q) = false := by simp [hp, Ne.symm h]
        simp [h, hpq, Ne.symm h]
    · rw [if_neg (by simpa using hp), dictFind_cons, dictFind_cons,
        dictFind_dictInsert d k v q]
      by_cases h : q = k
      · have hpq : (p.1 == q) = false := by simp [h, hp]
        simp [h, hpq, hp]
      · simp [h]

/-- The values of the probability list are exactly the scores, in order. -/
theorem probsSpec_map_snd (reg : List (Nat × String)) :
    ∀ (i : Nat) (vs : List ℚ), (probsSpec reg i vs).map Prod.snd = vs
  | _, [] => rfl
  | i, v :: vs => by
    rw [probsSpec, List.map_cons, probsSpec_map_snd reg (i + 1) vs]

/-- When the registry covers every index produced from `i` on, the names
are pairwise distinct, and the accumulator keys are fresh, the probability
loop succeeds and appends exactly `probsSpec`. -/
theorem buildProbsAux_ok (reg : List (Nat × String)) :
    ∀ (vs : List ℚ) (i : Nat) (acc : List (String × ℚ)),
    (∀ j, j < vs.length → (dictFind reg (i + j)).isSome) →
    (∀ j, j < vs.length → ∀ p, p ∈ acc → p.1 ≠ dictGetD reg (i + j) ("Unknown")) →
    (∀ k, k < vs.length → ∀ j, j < k →
      dictGetD reg (i + j) ("Unknown") ≠ dictGetD reg (i + k) ("Unknown")) →
    buildProbsAux reg i acc vs = Except.ok (acc ++ probsSpec reg i vs)
  | [], i, acc, _, _, _ => by simp [buildProbsAux, probsSpec]
  | v :: vs, i, acc, hc, hf, hd => by
    have hshift : ∀ m : Nat, i + (m + 1) = i + 1 + m := fun m => by omega
    obtain ⟨n, hn⟩ := Option.isSome_iff_exists.mp
      (by simpa using hc 0 (Nat.succ_pos _))
    have hng : dictGetD reg i ("Unknown") = n := by simp [dictGetD, hn]
    have hins : dictInsert acc n v = acc ++ [(n, v)] :=
      dictInsert_eq_append acc n v (fun p hp => by
        have := hf 0 (Nat.succ_pos _) p hp
        rw [Nat.add_zero, hng] at this
        exact this)
    have hc' : ∀ j, j < vs.length → (dictFind reg (i + 1 + j)).isSome := fun j hj => by
      have := hc (j + 1) (by simpa using Nat.succ_lt_succ hj)
      rwa [hshift j] at this
    have hf' : ∀ j, j < vs.length → ∀ p, p ∈ acc ++ [(n, v)] →
        p.1 ≠ dictGetD reg (i + 1 + j) ("Unknown") := fun j hj p hp => by
      rcases List.mem_append.mp hp with hmem | hmem
      · have := hf (j + 1) (by simpa using Nat.succ_lt_succ hj) p hmem
        rwa [hshift j] at this
      · have hpv : p = (n, v) := by simpa using hmem
        have := hd (j + 1) (by simpa using Nat.succ_lt_succ hj) 0 (Nat.succ_pos _)
        rw [Nat.add_zero, hng, hshift j] at this
        rw [hpv]
        exact this
    have hd' : ∀ k, k < vs.length → ∀ j, j < k →
        dictGetD reg (i + 1 + j) ("Unknown") ≠ dictGetD reg (i + 1 + k) ("Unknown") :=
      fun k hk j hj => by
        have := hd (k + 1) (by simpa using Nat.succ_lt_succ hk) (j + 1)
          (Nat.succ_lt_succ hj)
        rwa [hshift j, hshift k] at this
    rw [buildProbsAux, hn]
    show buildProbsAux reg (i + 1) (dictInsert acc n v) vs = _
    rw [hins, buildProbsAux_ok reg vs (i + 1) (acc ++ [(n, v)]) hc' hf' hd']
    rw [probsSpec, hng, List.append_assoc, List.singleton_append]

/-- Top-level form of `buildProbsAux_ok`, starting from an empty dict. -/
theorem buildProbs_ok (reg : List (Nat × String)) (pred : List ℚ)
    (hc : ∀ i, i < pred.length → (dictFind reg i).isSome)
    (hd : ∀ k, k < pred.length → ∀ j, j < k →
      dictGetD reg j ("Unknown") ≠ dictGetD reg k ("Unknown")) :
    buildProbs reg pred = Except.ok (probsSpec reg 0 pred) := by
  have := buildProbsAux_ok reg pred 0 []
    (fun j hj => by simpa using hc j hj)
    (fun j hj p hp => by simp at hp)
    (fun k hk j hj => by simpa using hd k hk j hj)
  simpa using this

/-- Looking up the name of the `j`-th entry in the probability list returns
the `j`-th score, provided the produced names are pairwise distinct. -/
theorem dictFind_probsSpec (reg : List (Nat × String)) :
    ∀ (vs : List ℚ) (i j : Nat), j < vs.length →
    (∀ k, k < vs.length → ∀ m, m < k →
      dictGetD reg (i + m) ("Unknown") ≠ dictGetD reg (i + k) ("Unknown")) →
    dictFind (probsSpec reg i vs) (dictGetD reg (i + j) ("Unknown")) =
      some (vs.getD j 0)
  | [], _, j, hj, _ => by simp at hj
  | v :: vs, i, 0, _, _ => by
    rw [probsSpec, dictFind_cons]
    simp
  | v :: vs, i, j + 1, hj, hd => by
    have hshift : ∀ m : Nat, i + (m + 1) = i + 1 + m := fun m => by omega
    rw [probsSpec, dictFind_cons]
    have hne : (dictGetD reg i ("Unknown") ==
        dictGetD reg (i + (j + 1)) ("Unknown")) = false := by
      have := hd (j + 1) (by simpa using hj) 0 (Nat.succ_pos _)
      rw [Nat.add_zero] at this
      simpa using this
    rw [if_neg (by simp [hne])]
    have hd' : ∀ k, k < vs.length → ∀ m, m < k →
        dictGetD reg (i + 1 + m) ("Unknown") ≠ dictGetD reg (i + 1 + k) ("Unknown") :=
      fun k hk m hm => by
        have := hd (k + 1) (by simpa using Nat.succ_lt_succ hk) (m + 1)
          (Nat.succ_lt_succ hm)
        rwa [hshift m, hshift k] at this
    have := dictFind_probsSpec reg vs (i + 1) j (by simpa using hj) hd'
    rw [hshift j]
    simpa using this

/-- Lookup in the dict built by the registry-inverting fold: the last pair
of the input carrying the looked-up index wins, and otherwise the initial
dict is consulted. -/
theorem dictFind_foldl_insert :
    ∀ (cl : List (String × Nat)) (d0 : List (Nat × String)) (k : Nat),
    dictFind (cl.foldl (fun d p => dictInsert d p.2 p.1) d0) k =
      match lastKeyed cl k with
      | some n => some n
      | none => dictFind d0 k
  | [], d0, k => by simp [lastKeyed]
  | p :: cl, d0, k => by
    rw [List.foldl_cons, dictFind_foldl_insert cl (dictInsert d0 p.2 p.1) k,
      lastKeyed]
    cases hlast : lastKeyed cl k with
    | some n => simp
    | none =>
      simp only []
      rw [dictFind_dictInsert]
      by_cases h : k = p.2
      · simp [h]
      · have h1 : (k == p.2) = false := by simpa using h
        have h2 : (p.2 == k) = false := by
          simpa using fun hc : p.2 = k => h hc.symm
        rw [if_neg (by simp [h1]), if_neg (by simp [h2])]

/-- Lookup in the inverse label map built by `load_model`: the last pair of
the label file carrying the looked-up index wins. -/
theorem dictFind_invertMap (cl : List (String × Nat)) (k : Nat) :
    dictFind (invertMap cl) k = lastKeyed cl k := by
  rw [invertMap, dictFind_foldl_insert cl [] k]
  cases hlast : lastKeyed cl k with
  | some n => rfl
  | none => simp [dictFind, List.find?]

/-- Indexing into the mapped bulk-result list is indexing the input list. -/
theorem getD_map_bulk (decode : Bytes → Except String Image) (model : Option Model)
    (reg : List (Nat × String)) :
    ∀ (l : List (String × Bytes)) (i : Nat), i < l.length →
    (l.map (bulkItemFor decode model reg)).getD i ⟨"", "", none, none, none⟩ =
      bulkItemFor decode model reg (l.getD i ("", []))
  | [], i, h => by simp at h
  | f :: l, 0, _ => by simp
  | f :: l, i + 1, h => by
    simp only [List.map_cons, List.getD_cons_succ]
    exact getD_map_bulk decode model reg l i (by simpa using h)

/-- Characterization of `predict_defect` on a loaded model with raw output
`pred`, when the registry covers every output index with pairwise distinct
names: the returned record is fully determined, with the arg-max label,
the maximum score as confidence, and `probsSpec` as the probability map. -/
theorem predict_defect_ok (reg : List (Nat × String)) (pred : List ℚ) (arr : NDArray)
    (hne : pred ≠ [])
    (hc : ∀ i, i < pred.length → (dictFind reg i).isSome)
    (hd : ∀ k, k < pred.length → ∀ j, j < k →
      dictGetD reg j ("Unknown") ≠ dictGetD reg k ("Unknown")) :
    predict_defect (some (constModel [pred])) reg arr =
      Except.ok
        { has_defect := pyLower (dictGetD reg (argmax pred) ("Unknown")) != "normal"
          defect_type := dictGetD reg (argmax pred) ("Unknown")
          confidence := listMax pred
          prediction :=
            pythonTitle (replaceChar '_' ' ' (dictGetD reg (argmax pred) ("Unknown"))) ++
              (if pyLower (dictGetD reg (argmax pred) ("Unknown")) != "normal"
                then " (Defect Detected)" else " (No Defect)")
          all_probabilities := probsSpec reg 0 pred } := by
  have hb := buildProbs_ok reg pred hc hd
  match pred, hne with
  | v :: vs, _ =>
    show (match buildProbs reg (v :: vs) with
      | Except.error e => Except.error e
      | Except.ok probs => _) = _
    rw [hb]

/-! ## Claim theorems -/

/-- C1 (counterexample): the claim "for every decoded image and every
supported geometry, preprocess_image returns a tensor shaped
(1,)+geometry, resizing Spatial images to exactly the declared
dimensions" is false: at the concrete image `nullImage` and geometry
Spatial(224, 224, 3) the produced shape is (1, 128, 128, 3), not
(1, 224, 224, 3) — the code resizes to 128 x 128 unconditionally. -/
theorem c1_counterexample :
    (preprocess_image nullImage).shape ≠
      1 :: (Geometry.spatial (some 224) (some 224) 3).shape := by decide

/-- C1 (amended): `preprocess_image` takes no geometry into account; for
every decoded image it resizes to exactly 128 x 128 and returns a tensor of
shape (1, 128, 128, 3), so its shape equals (1,)+geometry exactly for
geometries whose shape is (128, 128, 3). -/
theorem c1_preprocess_shape (img : Image) (g : Geometry) :
    (preprocess_image img).shape = 1 :: g.shape ↔ g.shape = [128, 128, 3] := by
  have hs : (preprocess_image img).shape = [1, 128, 128, 3] := rfl
  rw [hs]
  constructor
  · intro h
    injection h with h1 h2
    exact h2.symm
  · intro h
    rw [h]

/-- C1 witness: the amended claim applied at a concrete image and the
concrete geometry Spatial(128, 128, 3). -/
theorem c1_witness :
    (preprocess_image nullImage).shape =
        1 :: (Geometry.spatial (some 128) (some 128) 3).shape ↔
      (Geometry.spatial (some 128) (some 128) 3).shape = [128, 128, 3] :=
  c1_preprocess_shape nullImage (Geometry.spatial (some 128) (some 128) 3)

/-- C2 (counterexample): the claim quantifies over every label registry,
but for the raw output [1] and the empty registry `predict_defect` raises
KeyError("0") while building the probability dict and returns no Decision
Record at all, so the claimed interpretation does not hold for every
registry. -/
theorem c2_counterexample :
    predict_defect (some (constModel [[(1 : ℚ)]])) [] nullArray =
      Except.error ("0") := rfl

/-- C2 (amended): restricted to registries that contain every index of the
raw output (with pairwise distinct names, the Label Registry invariant),
`predict_defect` returns the record whose defect_type is the registry name
of the arg-max index, whose confidence is the score at the predicted
index, whose has_defect flag is set exactly when the lower-cased label
differs from "normal", and whose probability map sends each output index's
name to its score; the "Unknown" fallback never yields a record, because a
missing index makes the probability-map construction raise instead. -/
theorem c2_multiclass (reg : List (Nat × String)) (pred : List ℚ) (arr : NDArray)
    (hne : pred ≠ [])
    (hc : ∀ i, i < pred.length → (dictFind reg i).isSome)
    (hd : ∀ k, k < pred.length → ∀ j, j < k →
      dictGetD reg j ("Unknown") ≠ dictGetD reg k ("Unknown")) :
    predict_defect (some (constModel [pred])) reg arr =
      Except.ok
        { has_defect := pyLower (dictGetD reg (argmax pred) ("Unknown")) != "normal"
          defect_type := dictGetD reg (argmax pred) ("Unknown")
          confidence := pred.getD (argmax pred) 0
          prediction :=
            pythonTitle (replaceChar '_' ' ' (dictGetD reg (argmax pred) ("Unknown"))) ++
              (if pyLower (dictGetD reg (argmax pred) ("Unknown")) != "normal"
                then " (Defect Detected)" else " (No Defect)")
          all_probabilities := probsSpec reg 0 pred } := by
  rw [getD_argmax pred hne]
  exact predict_defect_ok reg pred arr hne hc hd

/-- C2 witness: the amended claim applied to the raw output
[0.1, 0.2, 0.7] and the fallback registry. -/
theorem c2_witness :
    predict_defect (some (constModel [[Rat.divInt 1 10, Rat.divInt 2 10, Rat.divInt 7 10]]))
        fallback_idx_to_label nullArray =
      Except.ok
        { has_defect :=
            pyLower (dictGetD fallback_idx_to_label
              (argmax [Rat.divInt 1 10, Rat.divInt 2 10, Rat.divInt 7 10]) ("Unknown")) != "normal"
          defect_type := dictGetD fallback_idx_to_label
            (argmax [Rat.divInt 1 10, Rat.divInt 2 10, Rat.divInt 7 10]) ("Unknown")
          confidence := [Rat.divInt 1 10, Rat.divInt 2 10, Rat.divInt 7 10].getD
            (argmax [Rat.divInt 1 10, Rat.divInt 2 10, Rat.divInt 7 10]) 0
          prediction :=
            pythonTitle (replaceChar '_' ' ' (dictGetD fallback_idx_to_label
              (argmax [Rat.divInt 1 10, Rat.divInt 2 10, Rat.divInt 7 10]) ("Unknown"))) ++
              (if pyLower (dictGetD fallback_idx_to_label
                  (argmax [Rat.divInt 1 10, Rat.divInt 2 10, Rat.divInt 7 10]) ("Unknown")) != "normal"
                then " (Defect Detected)" else " (No Defect)")
          all_probabilities := probsSpec fallback_idx_to_label 0
            [Rat.divInt 1 10, Rat.divInt 2 10, Rat.divInt 7 10] } :=
  c2_multiclass fallback_idx_to_label [Rat.divInt 1 10, Rat.divInt 2 10, Rat.divInt 7 10]
    nullArray (by decide) (by decide) (by decide)

/-- C3 (counterexample): the claim "a single scalar raw output is handled
in binary mode: has_defect iff the scalar exceeds 0.5, no label, no
probability map; in particular [0.2] yields has_defect = false" is false:
on raw output [0.2] with the fallback registry the code takes the same
arg-max path as always and returns has_defect = true (label "algae" is not
"normal"), with a label and a probability map present. -/
theorem c3_counterexample :
    predict_defect (some (constModel [[Rat.divInt 1 5]])) fallback_idx_to_label nullArray =
      Except.ok
        { has_defect := true
          defect_type := "algae"
          confidence := Rat.divInt 1 5
          prediction := "Algae (Defect Detected)"
          all_probabilities := [("algae", Rat.divInt 1 5)] } := by decide

/-- C3 (amended): there is no binary mode — a single-scalar raw output [x]
goes through the ordinary multi-class path: the predicted index is 0, the
label is the registry name of index 0, confidence is x (with no 0.5
threshold anywhere), has_defect is decided by that label not being
"normal", and a one-entry probability map is returned. -/
theorem c3_single_scalar (x : ℚ) (reg : List (Nat × String)) (arr : NDArray)
    (h0 : (dictFind reg 0).isSome) :
    predict_defect (some (constModel [[x]])) reg arr =
      Except.ok
        { has_defect := pyLower (dictGetD reg 0 ("Unknown")) != "normal"
          defect_type := dictGetD reg 0 ("Unknown")
          confidence := x
          prediction :=
            pythonTitle (replaceChar '_' ' ' (dictGetD reg 0 ("Unknown"))) ++
              (if pyLower (dictGetD reg 0 ("Unknown")) != "normal"
                then " (Defect Detected)" else " (No Defect)")
          all_probabilities := [(dictGetD reg 0 ("Unknown"), x)] } := by
  have := predict_defect_ok reg [x] arr (by simp)
    (fun i hi => by
      have : i = 0 := by simpa using hi
      rw [this]
      exact h0)
    (fun k hk j hj => by
      have : k = 0 := by simpa using hk
      omega)
  simpa [argmax, listMax, probsSpec] using this

/-- C3 witness: the amended claim applied to the scalar 0.73 and the
fallback registry. -/
theorem c3_witness :
    (dictFind fallback_idx_to_label 0).isSome = true ∧
    predict_defect (some (constModel [[Rat.divInt 73 100]])) fallback_idx_to_label nullArray =
      Except.ok
        { has_defect := pyLower (dictGetD fallback_idx_to_label 0 ("Unknown")) != "normal"
          defect_type := dictGetD fallback_idx_to_label 0 ("Unknown")
          confidence := Rat.divInt 73 100
          prediction :=
            pythonTitle (replaceChar '_' ' ' (dictGetD fallback_idx_to_label 0 ("Unknown"))) ++
              (if pyLower (dictGetD fallback_idx_to_label 0 ("Unknown")) != "normal"
                then " (Defect Detected)" else " (No Defect)")
          all_probabilities := [(dictGetD fallback_idx_to_label 0 ("Unknown"), Rat.divInt 73 100)] } :=
  ⟨by decide, c3_single_scalar (Rat.divInt 73 100) fallback_idx_to_label nullArray (by decide)⟩

/-- C4: the bulk orchestrator returns success with one result per input
item, in input order; the outcome at position i is exactly the per-item
pipeline applied to input item i (so no item's failure can affect any
other item's outcome or the overall success flag), and a failing item is
replaced by an error outcome carrying that item's name and the error's
message, whether decoding or prediction failed. -/
theorem c4_bulk_isolation (decode : Bytes → Except String Image)
    (model : Option Model) (reg : List (Nat × String))
    (files : List (String × Bytes)) :
    (predict_bulk decode model reg files).success = true ∧
    (predict_bulk decode model reg files).total_images = files.length ∧
    (predict_bulk decode model reg files).results.length = files.length ∧
    (∀ i, i < files.length →
      (predict_bulk decode model reg files).results.getD i ⟨"", "", none, none, none⟩ =
        bulkItemFor decode model reg (files.getD i ("", []))) ∧
    (∀ name bs e, decode bs = Except.error e →
      bulkItemFor decode model reg (name, bs) =
        ⟨name, "Error: " ++ e, none, none, none⟩) ∧
    (∀ name bs img e, decode bs = Except.ok img →
      predict_defect model reg (preprocess_image img) = Except.error e →
      bulkItemFor decode model reg (name, bs) =
        ⟨name, "Error: " ++ e, none, none, none⟩) := by
  refine ⟨rfl, rfl, by simp [predict_bulk], fun i hi => ?_,
    fun name bs e he => ?_, fun name bs img e h1 h2 => ?_⟩
  · exact getD_map_bulk decode model reg files i hi
  · simp [bulkItemFor, he]
  · simp [bulkItemFor, h1, h2]

/-- C4 witness: the length component of the bulk theorem at a concrete
two-item request. -/
theorem c4_witness :
    (predict_bulk nullDecode none [] [("a", []), ("b", [0])]).results.length =
      ([("a", ([] : Bytes)), ("b", [0])] : List (String × Bytes)).length :=
  (c4_bulk_isolation nullDecode none [] [("a", []), ("b", [0])]).2.2.1

/-- C5 (code bug): the spec says a predicted index absent from the registry
is reported as label "Unknown" and is not fatal, and line 70 of `api.py`
indeed computes the fallback via `.get(idx, "Unknown")` — but the
probability dict comprehension on line 83 then looks every output index up
with `idx_to_label[i]`, so the call raises KeyError("0") instead of
returning any record: at raw output [0.7, 0.3] with registry mapping only
index 1, the interpreter fails with error "0". -/
theorem c5_keyerror_fatal :
    predict_defect (some (constModel [[Rat.divInt 7 10, Rat.divInt 3 10]]))
        [(1, "normal")] nullArray =
      Except.error ("0") := by decide

/-- C6 (counterexample): the claim "registry construction fails on
duplicate indices, and a registry is never constructed whose inverse loses
a forward entry" is false: from the mapping a -> 0, b -> 0 the code
constructs the inverse [(0, b)] without any failure, and the entry (0, a)
is lost. -/
theorem c6_counterexample :
    invertMap [("a", 0), ("b", 0)] = [(0, "b")] ∧
    dictFind (invertMap [("a", 0), ("b", 0)]) 0 = some "b" ∧
    ¬ (0, "a") ∈ invertMap [("a", 0), ("b", 0)] := by decide

/-- C6 (amended): registry construction never fails; `load_model` builds
the inverse mapping with Python dict semantics, so looking an index up in
the inverse yields the name of the last pair of the supplied mapping
carrying that index — on duplicate indices earlier names are silently
dropped rather than rejected. -/
theorem c6_last_wins (modelFile : Option Model) (cl : List (String × Nat)) (k : Nat) :
    (load_model modelFile (some cl)).idx_to_label = invertMap cl ∧
    dictFind ((load_model modelFile (some cl)).idx_to_label) k = lastKeyed cl k :=
  ⟨rfl, dictFind_invertMap cl k⟩

/-- C6 witness: the amended claim applied to the duplicate mapping
a -> 0, b -> 0 at index 0. -/
theorem c6_witness :
    (load_model none (some [("a", 0), ("b", 0)])).idx_to_label =
        invertMap [("a", 0), ("b", 0)] ∧
    dictFind ((load_model none (some [("a", 0), ("b", 0)])).idx_to_label) 0 =
      lastKeyed [("a", 0), ("b", 0)] 0 :=
  c6_last_wins none [("a", 0), ("b", 0)] 0

/-- C7: the arg-max used by the interpreter (line 66 of `api.py`,
`np.argmax`) is the stable arg-max: it is a valid index attaining the
maximum score, and it is lower-or-equal to every index attaining the
maximum, so on ties the lowest index wins; being a pure function of the
scores, the selection is deterministic on every run. -/
theorem c7_stable_argmax (l : List ℚ) (hne : l ≠ []) :
    argmax l < l.length ∧
    l.getD (argmax l) 0 = listMax l ∧
    (∀ j, j < l.length → l.getD j 0 = listMax l → argmax l ≤ j) :=
  ⟨argmax_lt_length l hne, getD_argmax l hne, argmax_le l⟩

/-- C7 witness: the stable arg-max theorem applied to a concrete two-way
tie. -/
theorem c7_witness :
    ([(1 : ℚ), 1] ≠ []) ∧
    (argmax [(1 : ℚ), 1] < ([(1 : ℚ), 1] : List ℚ).length ∧
      ([(1 : ℚ), 1] : List ℚ).getD (argmax [(1 : ℚ), 1]) 0 = listMax [(1 : ℚ), 1] ∧
      (∀ j, j < ([(1 : ℚ), 1] : List ℚ).length →
        ([(1 : ℚ), 1] : List ℚ).getD j 0 = listMax [(1 : ℚ), 1] →
        argmax [(1 : ℚ), 1] ≤ j)) :=
  ⟨by decide, c7_stable_argmax [(1 : ℚ), 1] (by decide)⟩

/-- C8: with no model loaded (and loading is non-fatal: the startup handler
always produces a server state, here with `model = none` when the model
file is missing), every single-item inference call returns a structured
failure response with HTTP status 500; when decoding succeeded, the error
carried is exactly "Model not loaded". -/
theorem c8_no_model (lf : Option (List (String × Nat)))
    (decode : Bytes → Except String Image) (contents : Bytes) :
    (load_model none lf).model = none ∧
    ∃ e, predict_single decode (load_model none lf).model
          (load_model none lf).idx_to_label contents = PredictResponse.err 500 e ∧
      (∀ img, decode contents = Except.ok img → e = "Model not loaded") := by
  have hm : (load_model none lf).model = none := by cases lf <;> rfl
  refine ⟨hm, ?_⟩
  rw [hm]
  cases hdec : decode contents with
  | error e =>
    exact ⟨e, by simp [predict_single, hdec], fun img h => Except.noConfusion h⟩
  | ok img =>
    exact ⟨"Model not loaded", by simp [predict_single, hdec, predict_defect],
      fun img2 h => rfl⟩

/-- C8 witness: the no-model theorem applied at a concrete startup state
and request. -/
theorem c8_witness :
    (load_model none none).model = none ∧
    ∃ e, predict_single nullDecode (load_model none none).model
          (load_model none none).idx_to_label [] = PredictResponse.err 500 e ∧
      (∀ img, nullDecode [] = Except.ok img → e = "Model not loaded") :=
  c8_no_model none nullDecode []

/-- C9: with a fixed decode collaborator, fixed (deterministic) loaded
model and fixed registry, two single-item classification calls on equal
byte strings produce equal responses — the pipeline is a pure function of
its inputs, with no hidden state. -/
theorem c9_deterministic (decode : Bytes → Except String Image)
    (model : Option Model) (reg : List (Nat × String)) (b1 b2 : Bytes)
    (h : b1 = b2) :
    predict_single decode model reg b1 = predict_single decode model reg b2 := by
  rw [h]

/-- C9 witness: the determinism theorem applied at concrete inputs. -/
theorem c9_witness :
    (([0, 1] : Bytes) = [0, 1]) ∧
    predict_single nullDecode none [] [0, 1] =
      predict_single nullDecode none [] [0, 1] :=
  ⟨rfl, c9_deterministic nullDecode none [] [0, 1] [0, 1] rfl⟩

/-- C10: for every successfully constructed Decision Record whose registry
covers every index of the raw output (with pairwise distinct names, the
Label Registry invariant), the record's confidence equals the maximum
value occurring in its probability map, and equals the probability the map
assigns to the returned defect_type label. -/
theorem c10_confidence_invariant (reg : List (Nat × String)) (pred : List ℚ)
    (arr : NDArray) (r : DecisionRecord)
    (hok : predict_defect (some (constModel [pred])) reg arr = Except.ok r)
    (hc : ∀ i, i < pred.length → (dictFind reg i).isSome)
    (hd : ∀ k, k < pred.length → ∀ j, j < k →
      dictGetD reg j ("Unknown") ≠ dictGetD reg k ("Unknown")) :
    listMax (r.all_probabilities.map Prod.snd) = r.confidence ∧
    dictFind r.all_probabilities r.defect_type = some r.confidence := by
  have hne : pred ≠ [] := by
    intro hnil
    subst hnil
    exact Except.noConfusion hok
  rw [predict_defect_ok reg pred arr hne hc hd] at hok
  cases hok
  constructor
  · show listMax ((probsSpec reg 0 pred).map Prod.snd) = listMax pred
    rw [probsSpec_map_snd]
  · show dictFind (probsSpec reg 0 pred)
        (dictGetD reg (argmax pred) ("Unknown")) = some (listMax pred)
    have hj := argmax_lt_length pred hne
    have hfind := dictFind_probsSpec reg pred 0 (argmax pred) hj
      (fun k hk m hm => by simpa using hd k hk m hm)
    rw [Nat.zero_add] at hfind
    rw [hfind, getD_argmax pred hne]

/-- C10 witness: the invariant applied to a concrete record produced from
raw output [1, 3] under the fallback registry. -/
theorem c10_witness :
    (predict_defect (some (constModel [[(1 : ℚ), 3]])) fallback_idx_to_label nullArray =
      Except.ok
        { has_defect := true, defect_type := "major_crack", confidence := 3
          prediction := "Major Crack (Defect Detected)"
          all_probabilities := [("algae", 1), ("major_crack", 3)] }) ∧
    (listMax (([("algae", (1 : ℚ)), ("major_crack", 3)]).map Prod.snd) = 3 ∧
      dictFind [("algae", (1 : ℚ)), ("major_crack", 3)] "major_crack" = some 3) :=
  ⟨by decide, c10_confidence_invariant fallback_idx_to_label [1, 3] nullArray
    { has_defect := true, defect_type := "major_crack", confidence := 3
      prediction := "Major Crack (Defect Detected)"
      all_probabilities := [("algae", 1), ("major_crack", 3)] }
    (by decide) (by decide) (by decide)⟩

end ConstructionDefects
